import Mathlib

namespace Microplastic

/-- JavaScript numbers: NaN, the two infinities, or an exact finite value
(finite doubles are modelled as rationals). -/
inductive JSNum where
  | nan : JSNum
  | inf : Bool → JSNum
  | fin : ℚ → JSNum
deriving DecidableEq, Repr

/-- JavaScript values: undefined, null, booleans, numbers, strings, arrays and
string-keyed objects. -/
inductive JSVal where
  | undefv : JSVal
  | nullv : JSVal
  | bool : Bool → JSVal
  | num : JSNum → JSVal
  | str : String → JSVal
  | arr : List JSVal → JSVal
  | obj : List (String × JSVal) → JSVal

/-- ASCII lower-casing, modelling `String.prototype.toLowerCase` on the labels
this program compares. -/
def jsToLower (s : String) : String := String.mk (s.data.map Char.toLower)

/-- Truthiness of a JavaScript number: NaN and 0 are falsy. -/
def jsNumTruthy : JSNum → Bool
  | .nan => false
  | .inf _ => true
  | .fin q => q != 0

/-- Truthiness of a JavaScript value. -/
def jsTruthy : JSVal → Bool
  | .undefv => false
  | .nullv => false
  | .bool b => b
  | .num n => jsNumTruthy n
  | .str s => !(s == "")
  | .arr _ => true
  | .obj _ => true

/-- JavaScript `a || b`. -/
def jsOr (a b : JSVal) : JSVal := if jsTruthy a then a else b

/-- Whitespace characters trimmed by `Number(string)` coercion. -/
def jsWhitespace (c : Char) : Bool := c == ' ' || c == '\t' || c == '\n' || c == '\r'

/-- Value of a digit string as a natural number, most significant digit
first. -/
def digitsValN (cs : List Char) : ℕ :=
  cs.foldl (fun a c => 10 * a + (c.toNat - 48)) 0

/-- Value of a digit string, most significant digit first. -/
def digitsVal (cs : List Char) : ℚ := (digitsValN cs : ℚ)

/-- Value of a fractional digit string (the digits after the decimal point). -/
def fracVal (cs : List Char) : ℚ :=
  cs.foldr (fun c a => (a + ((c.toNat - 48 : ℕ) : ℚ)) / 10) 0

/-- Parsing of an unsigned decimal numeral: digits with an optional fraction;
at least one digit must be present. -/
def parseUnsigned (cs : List Char) : Option ℚ :=
  let ip := cs.takeWhile (·.isDigit)
  let rest := cs.dropWhile (·.isDigit)
  match rest with
  | [] => if ip.isEmpty then none else some (digitsVal ip)
  | '.' :: fr =>
      if fr.all (·.isDigit) && !(ip.isEmpty && fr.isEmpty) then
        some (digitsVal ip + fracVal fr)
      else none
  | _ => none

/-- JavaScript string-to-number coercion `Number(string)`, restricted to the
forms relevant here: surrounding whitespace is trimmed, the empty string is 0,
an optional sign precedes either `Infinity` or a plain decimal numeral, and
everything else is NaN (exponent and hex forms are not modelled). -/
def strToNum (s : String) : JSNum :=
  let cs := ((s.data.dropWhile jsWhitespace).reverse.dropWhile jsWhitespace).reverse
  match cs with
  | [] => .fin 0
  | _ =>
    let neg := cs.headD ' ' == '-'
    let cs1 := if cs.headD ' ' == '-' || cs.headD ' ' == '+' then cs.tail else cs
    if cs1 = "Infinity".data then .inf (!neg)
    else
      match parseUnsigned cs1 with
      | some q => .fin (if neg then -q else q)
      | none => .nan

/-- JavaScript `Number(v)` coercion. Undefined coerces to NaN, null and the
empty array to 0, booleans to 0/1; a one-element array coerces through its
single element (mirroring the ToPrimitive string round-trip at depth one;
deeper nesting is modelled as NaN), longer arrays (whose joined string has a
comma) and plain objects coerce to NaN. -/
def toNumber : JSVal → JSNum
  | .undefv => .nan
  | .nullv => .fin 0
  | .bool b => .fin (if b then 1 else 0)
  | .num n => n
  | .str s => strToNum s
  | .arr [] => .fin 0
  | .arr [.num n] => n
  | .arr [.str s] => strToNum s
  | .arr [.nullv] => .fin 0
  | .arr [.undefv] => .fin 0
  | .arr _ => .nan
  | .obj _ => .nan

/-- JavaScript `n || 0` on an already-coerced number: NaN and 0 give 0. -/
def numOrZero (n : JSNum) : JSNum := if jsNumTruthy n then n else .fin 0

/-- Translation of `parseBbox` (src/unnamed/part_000 lines 99-109 and
src/app/components/cameraUIwithoutSize.tsx lines 31-41): a falsy, non-array or
shorter-than-4 input yields all zeros (an array is always truthy, so the
`!bbox` guard is subsumed by the array match), and otherwise each of the first
four elements is coerced with `Number(-) || 0`. -/
def parseBbox (bbox : JSVal) : JSNum × JSNum × JSNum × JSNum :=
  match bbox with
  | .arr xs =>
      if xs.length < 4 then (.fin 0, .fin 0, .fin 0, .fin 0)
      else (numOrZero (toNumber (xs.getD 0 .undefv)),
            numOrZero (toNumber (xs.getD 1 .undefv)),
            numOrZero (toNumber (xs.getD 2 .undefv)),
            numOrZero (toNumber (xs.getD 3 .undefv)))
  | _ => (.fin 0, .fin 0, .fin 0, .fin 0)

/-- JavaScript property access `v[k]`: it throws a TypeError when the base is
null or undefined, looks the key up on an object, and yields undefined on any
other base (none of the keys this program reads is a built-in property of a
primitive or an array). -/
def getField : JSVal → String → Except String JSVal
  | .undefv, _ => .error "TypeError"
  | .nullv, _ => .error "TypeError"
  | .obj fs, k => .ok ((fs.lookup k).getD .undefv)
  | _, _ => .ok .undefv

/-- Total version of `getField`, meaningful on non-nullish bases. -/
def getFieldD (v : JSVal) (k : String) : JSVal :=
  match v with
  | .obj fs => (fs.lookup k).getD .undefv
  | _ => .undefv

/-- A value on which property access does not throw. -/
def nonNullish : JSVal → Bool
  | .undefv => false
  | .nullv => false
  | _ => true

theorem getField_eq_of_nonNullish (v : JSVal) (k : String)
    (h : nonNullish v = true) : getField v k = .ok (getFieldD v k) := by
  cases v <;> first | rfl | simp [nonNullish] at h

/-- Runtime shape of one element of `detections` after the normalization in
`sendToBackend` (src/unnamed/part_000 lines 203-213). The µm field names keep
the source spelling with `um`; `label` stays an untyped value because
`d.label || "Microplastic"` passes any truthy value through. -/
structure NormDetection where
  confidence : JSNum
  bbox : List JSNum
  label : JSVal
  width_px : Option JSNum
  height_px : Option JSNum
  width_um : Option JSNum
  height_um : Option JSNum
  diagonal_um : Option JSNum
  size_category : Option JSVal

/-- Translation of the per-element mapper inside `sendToBackend`
(src/unnamed/part_000 lines 203-213): every field is read off the raw element,
so a null or undefined element makes the whole map throw. The optional numeric
fields follow `d.f ? Number(d.f) : undefined` and `size_category` follows
`d.size_category || undefined`. -/
def normalizeDetection (d : JSVal) : Except String NormDetection := do
  let c ← getField d "confidence"
  let bb ← getField d "bbox"
  let lb ← getField d "label"
  let wpx ← getField d "width_px"
  let hpx ← getField d "height_px"
  let wum ← getField d "width_µm"
  let hum ← getField d "height_µm"
  let dum ← getField d "diagonal_µm"
  let sc ← getField d "size_category"
  .ok { confidence := numOrZero (toNumber c)
      , bbox := match bb with
                | .arr xs => xs.map toNumber
                | _ => [.fin 0, .fin 0, .fin 0, .fin 0]
      , label := jsOr lb (.str "Microplastic")
      , width_px := if jsTruthy wpx then some (toNumber wpx) else none
      , height_px := if jsTruthy hpx then some (toNumber hpx) else none
      , width_um := if jsTruthy wum then some (toNumber wum) else none
      , height_um := if jsTruthy hum then some (toNumber hum) else none
      , diagonal_um := if jsTruthy dum then some (toNumber dum) else none
      , size_category := if jsTruthy sc then some sc else none }

/-- Total normalization of one raw element, the value `normalizeDetection`
produces whenever the element is not nullish. -/
def normDetF (d : JSVal) : NormDetection :=
  { confidence := numOrZero (toNumber (getFieldD d "confidence"))
  , bbox := match getFieldD d "bbox" with
            | .arr xs => xs.map toNumber
            | _ => [.fin 0, .fin 0, .fin 0, .fin 0]
  , label := jsOr (getFieldD d "label") (.str "Microplastic")
  , width_px := if jsTruthy (getFieldD d "width_px") then
                  some (toNumber (getFieldD d "width_px")) else none
  , height_px := if jsTruthy (getFieldD d "height_px") then
                   some (toNumber (getFieldD d "height_px")) else none
  , width_um := if jsTruthy (getFieldD d "width_µm") then
                  some (toNumber (getFieldD d "width_µm")) else none
  , height_um := if jsTruthy (getFieldD d "height_µm") then
                   some (toNumber (getFieldD d "height_µm")) else none
  , diagonal_um := if jsTruthy (getFieldD d "diagonal_µm") then
                     some (toNumber (getFieldD d "diagonal_µm")) else none
  , size_category := if jsTruthy (getFieldD d "size_category") then
                       some (getFieldD d "size_category") else none }

theorem normalizeDetection_eq_of_nonNullish (d : JSVal)
    (h : nonNullish d = true) : normalizeDetection d = .ok (normDetF d) := by
  cases d <;> first | rfl | simp [nonNullish] at h

theorem normalizeDetection_nullish (d : JSVal) (h : nonNullish d = false) :
    normalizeDetection d = .error "TypeError" := by
  cases d <;> first | rfl | simp [nonNullish] at h

/-- Runtime shape of the `processedResult` object built in `sendToBackend`
(src/unnamed/part_000 lines 200-224). `count` and `size_counts` stay untyped
values because `|| 0` and `|| {...}` pass any truthy raw value through;
`image_size` and `calibration_info` are passed through unconditionally; the
timestamp is the local normalization time (the ISO rendering is abstracted as
the numeric instant). -/
structure ProcessedResult where
  count : JSVal
  detections : List NormDetection
  image_size : JSVal
  size_counts : JSVal
  calibration_info : JSVal
  timestamp : ℕ

/-- Default `size_counts` object supplied when the raw field is falsy. -/
def defaultSizeCounts : JSVal :=
  .obj [("nanoplastic", .num (.fin 0)), ("small", .num (.fin 0)),
        ("medium", .num (.fin 0)), ("large", .num (.fin 0))]

/-- Translation of the result normalization in `sendToBackend`
(src/unnamed/part_000 lines 200-224): `count := res.data.count || 0`,
`detections` maps each element when the raw field is an array and is empty
otherwise, `size_counts := res.data.size_counts || {all zeros}`, `image_size`
and `calibration_info` pass through, and the timestamp is assigned locally.
Any throw inside (a nullish detections element) propagates. -/
def processResponse (data : JSVal) (now : ℕ) : Except String ProcessedResult := do
  let cnt ← getField data "count"
  let dets ← getField data "detections"
  let detections ← (match dets with
    | .arr xs => xs.mapM normalizeDetection
    | _ => .ok ([] : List NormDetection))
  let isz ← getField data "image_size"
  let scs ← getField data "size_counts"
  let ci ← getField data "calibration_info"
  .ok { count := jsOr cnt (.num (.fin 0))
      , detections := detections
      , image_size := isz
      , size_counts := jsOr scs defaultSizeCounts
      , calibration_info := ci
      , timestamp := now }

theorem processResponse_eq_of_nonNullish (data : JSVal) (now : ℕ)
    (h : nonNullish data = true) :
    processResponse data now =
      (match getFieldD data "detections" with
       | .arr xs => xs.mapM normalizeDetection
       | _ => .ok ([] : List NormDetection)).bind (fun detections =>
        .ok { count := jsOr (getFieldD data "count") (.num (.fin 0))
            , detections := detections
            , image_size := getFieldD data "image_size"
            , size_counts := jsOr (getFieldD data "size_counts") defaultSizeCounts
            , calibration_info := getFieldD data "calibration_info"
            , timestamp := now }) := by
  cases data <;> first | rfl | simp [nonNullish] at h

theorem mapM_normalize_of_nonNullish (xs : List JSVal)
    (h : ∀ x ∈ xs, nonNullish x = true) :
    xs.mapM normalizeDetection = .ok (xs.map normDetF) := by
  induction xs with
  | nil => rfl
  | cons x xs ih =>
      rw [List.mapM_cons, normalizeDetection_eq_of_nonNullish x (h x (by simp)),
        ih (fun y hy => h y (by simp [hy]))]
      rfl

theorem mapM_normalize_ok_mem {xs : List JSVal} {ds : List NormDetection}
    (h : xs.mapM normalizeDetection = .ok ds) :
    ∀ d ∈ ds, ∃ x, normalizeDetection x = .ok d := by
  induction xs generalizing ds with
  | nil =>
      simp only [List.mapM_nil, pure] at h
      cases h
      intro d hd
      cases hd
  | cons x xs ih =>
      rw [List.mapM_cons] at h
      cases hx : normalizeDetection x with
      | error e => rw [hx] at h; cases h
      | ok d0 =>
          rw [hx] at h
          cases hxs : xs.mapM normalizeDetection with
          | error e =>
              rw [hxs] at h
              cases h
          | ok ds0 =>
              rw [hxs] at h
              cases h
              intro d hd
              rcases List.mem_cons.mp hd with h1 | h2
              · exact ⟨x, by rw [hx, h1]⟩
              · exact ih hxs d h2

/-- Slice of the component state touched by `sendToBackend`: the displayed
result, the loading flag and the rendered-image dimensions. -/
structure UIState where
  result : Option ProcessedResult
  loading : Bool
  imageDimensions : Option (ℚ × ℚ)

/-- Outcome of the awaited detection request: a parsed response body, or a
rejection (network error or non-2xx status). -/
inductive FetchOutcome where
  | success : JSVal → FetchOutcome
  | failure : FetchOutcome

/-- Translation of the state effects of `sendToBackend` (src/unnamed/part_000
lines 185-241): loading is set and the displayed result and image dimensions
are cleared before the request; on a fulfilled request the normalized result is
stored (a throw during normalization falls to the catch block, which only
alerts); the finally block clears loading in every case. -/
def sendToBackend (s : UIState) (o : FetchOutcome) (now : ℕ) : UIState :=
  let s1 : UIState := { s with loading := true, result := none, imageDimensions := none }
  match o with
  | .success data =>
      match processResponse data now with
      | .ok r => { s1 with result := some r, loading := false }
      | .error _ => { s1 with loading := false }
  | .failure => { s1 with loading := false }

/-- Persisted snapshot stored in history (src/unnamed/part_000 lines 42-48). -/
structure HistoryItem where
  id : String
  timestamp : String
  result : ProcessedResult
  imageData : String
  filename : String

/-- History slice of the component state together with the durable-storage
slot: `storage` is the parsed content of the `microplasticsHistory` key, with
`none` for an absent key. -/
structure HistoryState where
  history : List HistoryItem
  storage : Option (List HistoryItem)

/-- Translation of the persistence effect (src/unnamed/part_000 lines 92-97):
after each history change the list is written to durable storage, but only
when it is nonempty. -/
def persistEffect (st : HistoryState) : HistoryState :=
  if 0 < st.history.length then { st with storage := some st.history } else st

/-- Item built by `saveToHistory` (src/unnamed/part_000 lines 166-179): the id
is the decimal clock value and the human-readable locale timestamp is
abstracted as the same decimal rendering of the clock. -/
def mkHistoryItem (now : ℕ) (result : ProcessedResult)
    (imageData filename : String) : HistoryItem :=
  { id := toString now, timestamp := toString now, result := result
  , imageData := imageData, filename := filename }

/-- Translation of `saveToHistory` (src/unnamed/part_000 lines 165-183): the
new item is prepended and the list truncated to 50 items, then the persistence
effect runs on the changed list. -/
def saveToHistory (st : HistoryState) (now : ℕ) (result : ProcessedResult)
    (imageData filename : String) : HistoryState :=
  persistEffect { st with
    history := (mkHistoryItem now result imageData filename :: st.history).take 50 }

/-- Translation of `deleteHistoryItem` (src/unnamed/part_000 lines 260-264):
every entry whose id equals the argument is filtered out, then the persistence
effect runs on the changed list. -/
def deleteHistoryItem (st : HistoryState) (id : String) : HistoryState :=
  persistEffect { st with history := st.history.filter (fun item => item.id != id) }

/-- Translation of `clearAllHistory` (src/unnamed/part_000 lines 266-271): the
in-memory list is emptied and the persisted key removed; the persistence
effect then runs on the now-empty list and writes nothing. -/
def clearAllHistory (_st : HistoryState) : HistoryState :=
  persistEffect { history := [], storage := none }

/-- Sequential appends through `saveToHistory`, one entry per save:
clock value, result, image payload and filename. -/
def appendAll (st : HistoryState)
    (es : List (ℕ × ProcessedResult × String × String)) : HistoryState :=
  es.foldl (fun s e => saveToHistory s e.1 e.2.1 e.2.2.1 e.2.2.2) st

/-- Item that one `appendAll` entry inserts. -/
def itemOfEntry (e : ℕ × ProcessedResult × String × String) : HistoryItem :=
  mkHistoryItem e.1 e.2.1 e.2.2.1 e.2.2.2

/-- Fields of the typed `Detection` interface that `getSizeCategoryColor`
reads (src/unnamed/part_000 lines 12-22): the remaining fields do not affect
the classification. -/
structure Detection where
  confidence : JSNum
  label : String
  size_category : Option String

/-- Translation of the `sizeCategoryColors` record (src/unnamed/part_000
lines 66-71), as the partial lookup the bracket access performs. -/
def sizeCategoryColors : String → Option String
  | "nanoplastic" => some "border-red-500 bg-red-500/10 text-red-400"
  | "small" => some "border-yellow-500 bg-yellow-500/10 text-yellow-400"
  | "medium" => some "border-blue-500 bg-blue-500/10 text-blue-400"
  | "large" => some "border-purple-500 bg-purple-500/10 text-purple-400"
  | _ => none

/-- Truthiness of an optional string field: present and nonempty. -/
def strOptTruthy : Option String → Bool
  | none => false
  | some s => !(s == "")

/-- JavaScript `n > q` for an already-coerced confidence (NaN compares
false, the infinities by sign, finite values exactly). -/
def jsNumGtQ (n : JSNum) (q : ℚ) : Bool :=
  match n with
  | .nan => false
  | .inf b => b
  | .fin x => decide (q < x)

/-- Translation of `getSizeCategoryColor` (src/unnamed/part_000 lines
111-125): when `size_category` is truthy and the lower-cased label is
`microplastic`, the category color is looked up with a gray default;
otherwise the confidence fallback bands apply with strict thresholds 0.7 and
0.4 (the `getD ""` is never reached under the truthiness guard). -/
def getSizeCategoryColor (d : Detection) : String :=
  if strOptTruthy d.size_category && (jsToLower d.label == "microplastic") then
    (sizeCategoryColors (d.size_category.getD "")).getD
      "border-gray-500 bg-gray-500/10 text-gray-400"
  else
    let confidence := numOrZero d.confidence
    if jsNumGtQ confidence (7/10) then "border-green-500 bg-green-500/10 text-green-400"
    else if jsNumGtQ confidence (4/10) then "border-yellow-500 bg-yellow-500/10 text-yellow-400"
    else "border-red-500 bg-red-500/10 text-red-400"

/-- Rendering of an optional already-coerced numeric field back to the
JavaScript value the normalized object holds: an absent optional field reads
as undefined. -/
def optNumVal : Option JSNum → JSVal
  | none => .undefv
  | some n => .num n

/-- Rendering of the optional `size_category` field back to the JavaScript
value the normalized object holds. -/
def optVal : Option JSVal → JSVal
  | none => .undefv
  | some v => v

/-- JavaScript object a normalized detection is at runtime, used to feed the
output of the normalization step back through it. -/
def detToJS (d : NormDetection) : JSVal :=
  .obj [("confidence", .num d.confidence)
      , ("bbox", .arr (d.bbox.map JSVal.num))
      , ("label", d.label)
      , ("width_px", optNumVal d.width_px)
      , ("height_px", optNumVal d.height_px)
      , ("width_µm", optNumVal d.width_um)
      , ("height_µm", optNumVal d.height_um)
      , ("diagonal_µm", optNumVal d.diagonal_um)
      , ("size_category", optVal d.size_category)]

/-- JavaScript object a processed result is at runtime (the ISO timestamp
string is rendered from the numeric instant). -/
def resultToJS (r : ProcessedResult) : JSVal :=
  .obj [("count", r.count)
      , ("detections", .arr (r.detections.map detToJS))
      , ("image_size", r.image_size)
      , ("size_counts", r.size_counts)
      , ("calibration_info", r.calibration_info)
      , ("timestamp", .str (toString r.timestamp))]

/-- Finiteness of a JavaScript number. -/
def JSNum.isFinite : JSNum → Bool
  | .fin _ => true
  | _ => false

/-- A JavaScript number other than NaN. -/
def notNaN : JSNum → Bool
  | .nan => false
  | _ => true

/-- All four components of a parsed box differ from NaN. -/
def noNaN4 (t : JSNum × JSNum × JSNum × JSNum) : Bool :=
  notNaN t.1 && notNaN t.2.1 && notNaN t.2.2.1 && notNaN t.2.2.2

/-- An array value with at least four elements. -/
def isArrGe4 : JSVal → Bool
  | .arr xs => decide (4 ≤ xs.length)
  | _ => false

/-- An object value. -/
def isObjB : JSVal → Bool
  | .obj _ => true
  | _ => false

/-- A number value. -/
def isNumV : JSVal → Bool
  | .num _ => true
  | _ => false

/-- Elements the normalization maps over: the raw `detections` field when it
is an array, nothing otherwise. -/
def detsOf (data : JSVal) : List JSVal :=
  match getFieldD data "detections" with
  | .arr xs => xs
  | _ => []

/-- Detection the mapper produces from an element all of whose field reads
come back falsy (confidence 0, zero box, fallback label, no optional
fields). -/
def defaultDetection : NormDetection :=
  { confidence := .fin 0
  , bbox := [.fin 0, .fin 0, .fin 0, .fin 0]
  , label := .str "Microplastic"
  , width_px := none, height_px := none, width_um := none
  , height_um := none, diagonal_um := none, size_category := none }

/-- An optional coerced field that survives the re-normalization truthiness
test: absent, or a truthy number. -/
def optTruthy : Option JSNum → Bool
  | none => true
  | some n => jsNumTruthy n

/-- The optional numeric fields of a normalized detection all survive
re-normalization. -/
def detCanonicalOpt (d : NormDetection) : Bool :=
  optTruthy d.width_px && optTruthy d.height_px && optTruthy d.width_um &&
    optTruthy d.height_um && optTruthy d.diagonal_um

/-- Every detection of a processed result has re-normalizable optional
fields. -/
def resultCanonicalOpt (r : ProcessedResult) : Bool :=
  r.detections.all detCanonicalOpt

/-- Shape facts every output of the per-element mapper satisfies. -/
def DetInv (d : NormDetection) : Prop :=
  numOrZero d.confidence = d.confidence ∧ jsTruthy d.label = true ∧
    ∀ v, d.size_category = some v → jsTruthy v = true

/-- Shape facts every output of the result normalization satisfies. -/
def ResInv (r : ProcessedResult) : Prop :=
  (jsTruthy r.count = true ∨ r.count = .num (.fin 0)) ∧
    jsTruthy r.size_counts = true ∧ ∀ d ∈ r.detections, DetInv d

theorem numOrZero_idem (n : JSNum) : numOrZero (numOrZero n) = numOrZero n := by
  cases n with
  | nan => rfl
  | inf b => rfl
  | fin q =>
      by_cases h : q = 0
      · subst h; rfl
      · simp [numOrZero, jsNumTruthy, h]

theorem numOrZero_notNaN (n : JSNum) : notNaN (numOrZero n) = true := by
  cases n with
  | nan => rfl
  | inf b => rfl
  | fin q =>
      by_cases h : q = 0
      · subst h; rfl
      · simp [numOrZero, jsNumTruthy, h, notNaN]

theorem jsOr_of_truthy (a b : JSVal) (h : jsTruthy a = true) : jsOr a b = a := by
  simp [jsOr, h]

theorem jsTruthy_jsOr (a b : JSVal) (hb : jsTruthy b = true) :
    jsTruthy (jsOr a b) = true := by
  unfold jsOr
  split <;> simp_all

theorem jsOr_zero_cases (a : JSVal) :
    jsTruthy (jsOr a (.num (.fin 0))) = true ∨ jsOr a (.num (.fin 0)) = .num (.fin 0) := by
  unfold jsOr
  split
  · left; assumption
  · right; rfl

theorem processResponse_nullish (data : JSVal) (now : ℕ)
    (h : nonNullish data = false) :
    processResponse data now = .error "TypeError" := by
  cases data <;> first | rfl | simp [nonNullish] at h

theorem detInv_normDetF (d : JSVal) : DetInv (normDetF d) := by
  refine ⟨numOrZero_idem _, jsTruthy_jsOr _ _ (by rfl), ?_⟩
  intro v hv
  simp only [normDetF] at hv
  split at hv
  · cases hv
    assumption
  · cases hv

theorem detInv_of_normalize {x : JSVal} {d : NormDetection}
    (h : normalizeDetection x = .ok d) : DetInv d := by
  cases hx : nonNullish x
  · rw [normalizeDetection_nullish x hx] at h
    cases h
  · rw [normalizeDetection_eq_of_nonNullish x hx] at h
    cases h
    exact detInv_normDetF x

theorem resInv_of_process {data : JSVal} {now : ℕ} {r : ProcessedResult}
    (h : processResponse data now = .ok r) : ResInv r := by
  cases hd : nonNullish data
  · rw [processResponse_nullish data now hd] at h
    cases h
  · rw [processResponse_eq_of_nonNullish data now hd] at h
    cases hm : (match getFieldD data "detections" with
                | .arr xs => xs.mapM normalizeDetection
                | _ => .ok ([] : List NormDetection)) with
    | error e => rw [hm] at h; cases h
    | ok ds =>
        rw [hm] at h
        cases h
        refine ⟨jsOr_zero_cases _, jsTruthy_jsOr _ _ (by rfl), ?_⟩
        intro d hd'
        revert hm
        cases getFieldD data "detections" with
        | arr xs =>
            intro hm
            obtain ⟨x, hx⟩ := mapM_normalize_ok_mem hm d hd'
            exact detInv_of_normalize hx
        | undefv => intro hm; cases hm; cases hd'
        | nullv => intro hm; cases hm; cases hd'
        | bool b => intro hm; cases hm; cases hd'
        | num n => intro hm; cases hm; cases hd'
        | str s => intro hm; cases hm; cases hd'
        | obj fs => intro hm; cases hm; cases hd'

theorem map_toNumber_num (l : List JSNum) : (l.map JSVal.num).map toNumber = l := by
  induction l with
  | nil => rfl
  | cons a l ih => simp [toNumber, ih]

theorem renorm_det (d : NormDetection) (hinv : DetInv d)
    (hc : detCanonicalOpt d = true) : normalizeDetection (detToJS d) = .ok d := by
  obtain ⟨c, bb, lb, wp, hp, wu, hu, du, sc⟩ := d
  obtain ⟨h1, h2, h3⟩ := hinv
  simp only [detCanonicalOpt, Bool.and_eq_true] at hc
  obtain ⟨⟨⟨⟨hwp, hhp⟩, hwu⟩, hhu⟩, hdu⟩ := hc
  have hred : normalizeDetection (detToJS ⟨c, bb, lb, wp, hp, wu, hu, du, sc⟩) =
      .ok { confidence := numOrZero (toNumber (.num c))
          , bbox := (bb.map JSVal.num).map toNumber
          , label := jsOr lb (.str "Microplastic")
          , width_px := if jsTruthy (optNumVal wp) then some (toNumber (optNumVal wp)) else none
          , height_px := if jsTruthy (optNumVal hp) then some (toNumber (optNumVal hp)) else none
          , width_um := if jsTruthy (optNumVal wu) then some (toNumber (optNumVal wu)) else none
          , height_um := if jsTruthy (optNumVal hu) then some (toNumber (optNumVal hu)) else none
          , diagonal_um := if jsTruthy (optNumVal du) then some (toNumber (optNumVal du)) else none
          , size_category := if jsTruthy (optVal sc) then some (optVal sc) else none } := rfl
  have eopt : ∀ (o : Option JSNum), optTruthy o = true →
      (if jsTruthy (optNumVal o) then some (toNumber (optNumVal o)) else none) = o := by
    intro o ho
    cases o with
    | none => rfl
    | some n =>
        have hn : jsNumTruthy n = true := ho
        have tn : toNumber (.num n) = n := rfl
        show (if jsNumTruthy n then some (toNumber (.num n)) else none) = some n
        simp [hn, tn]
  have esc : (if jsTruthy (optVal sc) then some (optVal sc) else none) = sc := by
    cases sc with
    | none => rfl
    | some v =>
        have hv : jsTruthy v = true := h3 v rfl
        show (if jsTruthy v then some v else none) = some v
        simp [hv]
  have hcn : toNumber (.num c) = c := rfl
  rw [hred]
  simp only [Except.ok.injEq, NormDetection.mk.injEq]
  refine ⟨?_, ?_, ?_, ?_, ?_, ?_, ?_, ?_, ?_⟩
  · rw [hcn]; exact h1
  · exact map_toNumber_num bb
  · exact jsOr_of_truthy _ _ h2
  · exact eopt wp hwp
  · exact eopt hp hhp
  · exact eopt wu hwu
  · exact eopt hu hhu
  · exact eopt du hdu
  · exact esc

theorem mapM_renorm (ds : List NormDetection)
    (h : ∀ d ∈ ds, DetInv d) (hc : ∀ d ∈ ds, detCanonicalOpt d = true) :
    (ds.map detToJS).mapM normalizeDetection = .ok ds := by
  induction ds with
  | nil => rfl
  | cons d ds ih =>
      rw [List.map_cons, List.mapM_cons, renorm_det d (h d (by simp)) (hc d (by simp)),
        ih (fun x hx => h x (by simp [hx])) (fun x hx => hc x (by simp [hx]))]
      rfl

theorem persistEffect_history (st : HistoryState) :
    (persistEffect st).history = st.history := by
  unfold persistEffect
  split <;> rfl

theorem take_absorb {α : Type} (a b : List α) (n : ℕ) :
    (a ++ b.take n).take n = (a ++ b).take n := by
  rw [List.take_append_eq_append_take, List.take_append_eq_append_take, List.take_take,
    Nat.min_eq_left (Nat.sub_le n a.length)]

theorem saveToHistory_history (st : HistoryState) (now : ℕ)
    (res : ProcessedResult) (img fn : String) :
    (saveToHistory st now res img fn).history =
      (mkHistoryItem now res img fn :: st.history).take 50 := by
  rw [saveToHistory, persistEffect_history]

theorem appendAll_history (es : List (ℕ × ProcessedResult × String × String)) :
    ∀ st : HistoryState, st.history.length ≤ 50 →
      (appendAll st es).history = ((es.map itemOfEntry).reverse ++ st.history).take 50 := by
  induction es with
  | nil =>
      intro st h
      show st.history = st.history.take 50
      exact (List.take_of_length_le h).symm
  | cons e es ih =>
      intro st h
      have hlen : (saveToHistory st e.1 e.2.1 e.2.2.1 e.2.2.2).history.length ≤ 50 := by
        rw [saveToHistory_history]
        simp [List.length_take]
      have hstep : appendAll st (e :: es) =
          appendAll (saveToHistory st e.1 e.2.1 e.2.2.1 e.2.2.2) es := rfl
      rw [hstep, ih _ hlen, saveToHistory_history, take_absorb]
      congr 1
      simp [itemOfEntry, List.append_assoc]

theorem filter_id_length (l : List HistoryItem) (id : String)
    (h : (l.map HistoryItem.id).Nodup) :
    l.length ≤ (l.filter (fun item => item.id != id)).length + 1 := by
  induction l with
  | nil => simp
  | cons a l ih =>
      simp only [List.map_cons, List.nodup_cons] at h
      obtain ⟨hna, hnd⟩ := h
      by_cases ha : a.id = id
      · have hall : ∀ x ∈ l, (fun item => item.id != id) x = true := by
          intro x hx
          have hxe : x.id ≠ id := by
            intro hxe
            exact hna (by rw [ha, ← hxe]; exact List.mem_map_of_mem HistoryItem.id hx)
          simp [hxe]
        rw [List.filter_cons]
        simp only [ha, bne_self_eq_false, if_neg Bool.false_ne_true]
        rw [List.filter_eq_self.mpr hall]
        simp
      · rw [List.filter_cons]
        have : (a.id != id) = true := by simp [ha]
        rw [if_pos this]
        have := ih hnd
        simp only [List.length_cons]
        omega

/-- Counterexample input for C1: a four-element bbox whose first component is
the string Infinity, as a JSON payload can carry. -/
def c1bad : JSVal := .arr [.str "Infinity", .num (.fin 0), .num (.fin 0), .num (.fin 0)]

/-- C1, counterexample: the claim says `parseBbox` always returns four finite
numbers, but on a box whose first component coerces to Infinity the component
passes through `Number(-) || 0` untouched, so the output is not finite. -/
theorem parseBbox_c1_counterexample :
    parseBbox c1bad = (.inf true, .fin 0, .fin 0, .fin 0) ∧
      JSNum.isFinite (.inf true) = false := ⟨rfl, rfl⟩

/-- C1, amended: for every input, `parseBbox` returns four numbers none of
which is NaN; a missing, non-array or shorter-than-4 input yields `(0,0,0,0)`;
and on an array of length at least 4 each component is exactly
`Number(-) || 0` of the corresponding element, so a component whose coercion
is NaN (or 0) becomes 0 while an infinite coercion passes through — the
output need not be finite. -/
theorem parseBbox_c1_amended :
    (∀ bbox : JSVal, noNaN4 (parseBbox bbox) = true) ∧
    (∀ bbox : JSVal, isArrGe4 bbox = false →
        parseBbox bbox = (.fin 0, .fin 0, .fin 0, .fin 0)) ∧
    (∀ xs : List JSVal, 4 ≤ xs.length →
        parseBbox (.arr xs) =
          (numOrZero (toNumber (xs.getD 0 .undefv)), numOrZero (toNumber (xs.getD 1 .undefv)),
           numOrZero (toNumber (xs.getD 2 .undefv)), numOrZero (toNumber (xs.getD 3 .undefv)))) := by
  refine ⟨?_, ?_, ?_⟩
  · intro bbox
    cases bbox with
    | arr xs =>
        simp only [parseBbox]
        split
        · rfl
        · simp [noNaN4, numOrZero_notNaN]
    | undefv => rfl
    | nullv => rfl
    | bool b => rfl
    | num n => rfl
    | str s => rfl
    | obj fs => rfl
  · intro bbox h
    cases bbox with
    | arr xs =>
        simp only [isArrGe4, decide_eq_false_iff_not, not_le] at h
        simp only [parseBbox]
        rw [if_pos h]
    | undefv => rfl
    | nullv => rfl
    | bool b => rfl
    | num n => rfl
    | str s => rfl
    | obj fs => rfl
  · intro xs h
    simp only [parseBbox]
    rw [if_neg (by omega)]

/-- Witness input for the C1 amended theorem. -/
def c1wxs : List JSVal := [.str "5", .nullv, .undefv, .bool true]

/-- C1, witness: the amended theorem applied to a concrete four-element box
holding a numeric string, null, undefined and a boolean. -/
theorem parseBbox_c1_witness :
    4 ≤ c1wxs.length ∧
      parseBbox (.arr c1wxs) =
        (numOrZero (toNumber (c1wxs.getD 0 .undefv)), numOrZero (toNumber (c1wxs.getD 1 .undefv)),
         numOrZero (toNumber (c1wxs.getD 2 .undefv)), numOrZero (toNumber (c1wxs.getD 3 .undefv))) :=
  ⟨by decide, parseBbox_c1_amended.2.2 c1wxs (by decide)⟩

/-- C8: the size classifier is a pure function whose two policies never
blend. A detection with `size_category = "medium"` whose lower-cased label is
`microplastic` is classified by the medium category treatment for every
confidence value, and a detection whose label is not `microplastic` with
confidence 0.75 gets the high-confidence treatment for every value of its
`size_category` field. -/
theorem classifier_c8_policies :
    (∀ (conf : JSNum) (lbl : String), jsToLower lbl = "microplastic" →
        getSizeCategoryColor ⟨conf, lbl, some "medium"⟩ =
          "border-blue-500 bg-blue-500/10 text-blue-400") ∧
    (∀ (sc : Option String) (lbl : String), jsToLower lbl ≠ "microplastic" →
        getSizeCategoryColor ⟨.fin (3/4), lbl, sc⟩ =
          "border-green-500 bg-green-500/10 text-green-400") := by
  constructor
  · intro conf lbl h
    simp [getSizeCategoryColor, strOptTruthy, h, sizeCategoryColors]
  · intro sc lbl h
    have h2 : (jsToLower lbl == "microplastic") = false := by
      simp [h]
    have h3 : numOrZero (.fin (3/4)) = .fin (3/4) := by
      simp [numOrZero, jsNumTruthy]
    have h4 : jsNumGtQ (.fin (3/4)) (7/10) = true := by
      simp only [jsNumGtQ, decide_eq_true_eq]
      norm_num
    simp [getSizeCategoryColor, h2, h3, h4]

/-- C8, witness: the medium policy at NaN confidence and the confidence
policy at 0.75 with a category present, at concrete labels. -/
theorem classifier_c8_witness :
    getSizeCategoryColor ⟨.nan, "MicroPlastic", some "medium"⟩ =
        "border-blue-500 bg-blue-500/10 text-blue-400" ∧
      getSizeCategoryColor ⟨.fin (3/4), "fiber", some "large"⟩ =
        "border-green-500 bg-green-500/10 text-green-400" :=
  ⟨classifier_c8_policies.1 .nan "MicroPlastic" (by decide),
   classifier_c8_policies.2 (some "large") "fiber" (by decide)⟩

/-- C10: a detection labelled `microplastic` (case-insensitively) carrying a
nonempty `size_category` outside the four known keys falls to the gray
default, which is neither one of the four category treatments nor one of the
three confidence treatments. -/
theorem classifier_c10_gray (sc : String) (conf : JSNum) (lbl : String)
    (hl : jsToLower lbl = "microplastic") (hne : (sc == "") = false)
    (hout : sizeCategoryColors sc = none) :
    getSizeCategoryColor ⟨conf, lbl, some sc⟩ =
        "border-gray-500 bg-gray-500/10 text-gray-400" ∧
      (["border-red-500 bg-red-500/10 text-red-400",
        "border-yellow-500 bg-yellow-500/10 text-yellow-400",
        "border-blue-500 bg-blue-500/10 text-blue-400",
        "border-purple-500 bg-purple-500/10 text-purple-400"].contains
          "border-gray-500 bg-gray-500/10 text-gray-400") = false ∧
      (["border-green-500 bg-green-500/10 text-green-400",
        "border-yellow-500 bg-yellow-500/10 text-yellow-400",
        "border-red-500 bg-red-500/10 text-red-400"].contains
          "border-gray-500 bg-gray-500/10 text-gray-400") = false := by
  refine ⟨?_, by decide, by decide⟩
  simp [getSizeCategoryColor, strOptTruthy, hne, hl, hout]

/-- C10, witness: the gray default at the concrete unknown category huge. -/
theorem classifier_c10_witness :
    getSizeCategoryColor ⟨.fin 1, "microplastic", some "huge"⟩ =
        "border-gray-500 bg-gray-500/10 text-gray-400" ∧
      (["border-red-500 bg-red-500/10 text-red-400",
        "border-yellow-500 bg-yellow-500/10 text-yellow-400",
        "border-blue-500 bg-blue-500/10 text-blue-400",
        "border-purple-500 bg-purple-500/10 text-purple-400"].contains
          "border-gray-500 bg-gray-500/10 text-gray-400") = false ∧
      (["border-green-500 bg-green-500/10 text-green-400",
        "border-yellow-500 bg-yellow-500/10 text-yellow-400",
        "border-red-500 bg-red-500/10 text-red-400"].contains
          "border-gray-500 bg-gray-500/10 text-gray-400") = false :=
  classifier_c10_gray "huge" (.fin 1) "microplastic" (by decide) (by decide) (by decide)

/-- Canonical empty processed result, used to build concrete states. -/
def emptyResult : ProcessedResult :=
  { count := .num (.fin 0), detections := [], image_size := .undefv
  , size_counts := defaultSizeCounts, calibration_info := .undefv, timestamp := 0 }

/-- Prior UI state for the C3 counterexample: a result is on display. -/
def c3prior : UIState :=
  { result := some emptyResult, loading := false, imageDimensions := some (100, 100) }

/-- C3, counterexample: starting from a state that displays a result, a failed
request leaves loading cleared but the displayed result is gone — it was
cleared when the request started and the catch path does not restore it, so
the claim that the prior result is still displayed fails. -/
theorem sendToBackend_c3_counterexample :
    c3prior.result = some emptyResult ∧
      (sendToBackend c3prior .failure 1).loading = false ∧
      (sendToBackend c3prior .failure 1).result = none ∧
      (sendToBackend c3prior .failure 1).result ≠ c3prior.result :=
  ⟨rfl, rfl, rfl, fun h => Option.noConfusion h⟩

/-- C3, amended: when the detection request fails, loading is cleared, and the
previously displayed result is not preserved: `sendToBackend` resets the
result and the image dimensions at request start, so after the failure nothing
is displayed. -/
theorem sendToBackend_c3_amended (s : UIState) (now : ℕ) :
    (sendToBackend s .failure now).loading = false ∧
      (sendToBackend s .failure now).result = none ∧
      (sendToBackend s .failure now).imageDimensions = none :=
  ⟨rfl, rfl, rfl⟩

theorem persistEffect_spec (st : HistoryState) (h : st.history ≠ []) :
    (persistEffect st).storage = some (persistEffect st).history := by
  rw [persistEffect_history]
  unfold persistEffect
  rw [if_pos (List.length_pos.mpr h)]

/-- Concrete history entry with id 1. -/
def item1 : HistoryItem :=
  { id := "1", timestamp := "t", result := emptyResult, imageData := "img", filename := "f" }

/-- One-entry history whose persisted blob matches it. -/
def c4state : HistoryState := { history := [item1], storage := some [item1] }

/-- C4, counterexample: deleting the last remaining entry empties the
in-memory history, but the persistence effect is guarded by a nonempty check,
so the persisted blob still holds the deleted entry instead of matching the
new empty list. -/
theorem history_c4_counterexample :
    (deleteHistoryItem c4state "1").history = [] ∧
      (deleteHistoryItem c4state "1").storage = some [item1] ∧
      some [item1] ≠ some ([] : List HistoryItem) :=
  ⟨rfl, rfl, by simp⟩

/-- C4, amended: every append persists the new list, a removal that leaves the
list nonempty persists it, and a clear removes the blob; but a removal that
empties the list skips the guarded write, leaving the stale previous blob in
durable storage. -/
theorem history_c4_amended :
    (∀ (st : HistoryState) (now : ℕ) (res : ProcessedResult) (img fn : String),
        (saveToHistory st now res img fn).storage =
          some (saveToHistory st now res img fn).history) ∧
    (∀ (st : HistoryState) (id : String), (deleteHistoryItem st id).history ≠ [] →
        (deleteHistoryItem st id).storage = some (deleteHistoryItem st id).history) ∧
    (∀ st : HistoryState, (clearAllHistory st).storage = none) ∧
    (∀ (st : HistoryState) (id : String), (deleteHistoryItem st id).history = [] →
        (deleteHistoryItem st id).storage = st.storage) := by
  refine ⟨?_, ?_, ?_, ?_⟩
  · intro st now res img fn
    apply persistEffect_spec
    intro hc
    have h0 := congrArg List.length hc
    simp [List.length_take] at h0
  · intro st id h
    rw [deleteHistoryItem, persistEffect_history] at h
    exact persistEffect_spec _ h
  · intro st
    rfl
  · intro st id h
    rw [deleteHistoryItem, persistEffect_history] at h
    have h' : st.history.filter (fun item => item.id != id) = [] := h
    rw [deleteHistoryItem]
    unfold persistEffect
    have hc : ¬ 0 < (({ st with
        history := st.history.filter (fun item => item.id != id) } : HistoryState).history.length) := by
      simp [h']
    rw [if_neg hc]

/-- One-entry history with an absent persisted blob. -/
def oneItemState : HistoryState := { history := [item1], storage := none }

/-- C4, witness: the amended theorem's removal clause applied to a concrete
one-entry history and an id matching nothing. -/
theorem history_c4_witness :
    (deleteHistoryItem oneItemState "zzz").storage =
      some (deleteHistoryItem oneItemState "zzz").history :=
  history_c4_amended.2.1 oneItemState "zzz" (fun h => List.noConfusion h)

/-- Two-entry history sharing one id, as two saves in the same millisecond
produce (ids come from the millisecond clock). -/
def c9dup : HistoryState := { history := [item1, item1], storage := none }

/-- C9, counterexample: with two entries sharing id 1, deleting id 1 removes
both entries — the filter drops every match, not at most one. -/
theorem delete_c9_counterexample :
    c9dup.history.length = 2 ∧ (deleteHistoryItem c9dup "1").history = [] :=
  ⟨rfl, rfl⟩

/-- C9, amended: `deleteHistoryItem` removes every entry whose id matches, so
it removes at most one entry whenever the stored ids are pairwise distinct
(as the millisecond id generator intends); and an id present on no entry
leaves the history unchanged in length and order. -/
theorem delete_c9_amended :
    (∀ (st : HistoryState) (id : String), (∀ it ∈ st.history, it.id ≠ id) →
        (deleteHistoryItem st id).history = st.history) ∧
    (∀ (st : HistoryState) (id : String), (st.history.map HistoryItem.id).Nodup →
        st.history.length ≤ (deleteHistoryItem st id).history.length + 1) := by
  constructor
  · intro st id h
    rw [deleteHistoryItem, persistEffect_history]
    show st.history.filter (fun item => item.id != id) = st.history
    exact List.filter_eq_self.mpr (fun a ha => by simp [h a ha])
  · intro st id h
    rw [deleteHistoryItem, persistEffect_history]
    show st.history.length ≤ (st.history.filter (fun item => item.id != id)).length + 1
    exact filter_id_length st.history id h

/-- C9, witness: the amended theorem's no-op clause applied to a concrete
one-entry history and an id matching nothing. -/
theorem delete_c9_witness :
    (deleteHistoryItem oneItemState "zzz").history = oneItemState.history :=
  delete_c9_amended.1 oneItemState "zzz" (by decide)

/-- Empty history state at process start. -/
def initialHistoryState : HistoryState := { history := [], storage := none }

/-- C6: appending 55 entries in sequence to an empty history leaves exactly 50
items, and they are the 50 most recently appended in most-recent-first order:
the final list is the reverse of the appended sequence with its five oldest
entries dropped (each append prepends and truncation drops the tail). -/
theorem history_c6_cap (es : List (ℕ × ProcessedResult × String × String))
    (h : es.length = 55) :
    (appendAll initialHistoryState es).history.length = 50 ∧
      (appendAll initialHistoryState es).history =
        ((es.map itemOfEntry).drop 5).reverse := by
  have h0 : initialHistoryState.history.length ≤ 50 := by simp [initialHistoryState]
  have ha := appendAll_history es initialHistoryState h0
  have hnil : initialHistoryState.history = [] := rfl
  rw [hnil, List.append_nil] at ha
  constructor
  · rw [ha]
    simp [List.length_take, h]
  · rw [ha, List.take_reverse, List.length_map, h]

/-- Concrete 55-entry sequence for the C6 witness. -/
def c6entries : List (ℕ × ProcessedResult × String × String) :=
  (List.range 55).map (fun i => (i, emptyResult, "img", "file"))

/-- C6, witness: the cap theorem applied to 55 concrete sequential saves. -/
theorem history_c6_witness :
    (appendAll initialHistoryState c6entries).history.length = 50 ∧
      (appendAll initialHistoryState c6entries).history =
        ((c6entries.map itemOfEntry).drop 5).reverse :=
  history_c6_cap c6entries (by simp [c6entries])

/-- Raw response whose detections array holds a null element. -/
def c2bad : JSVal := .obj [("detections", .arr [.nullv])]

/-- C2, counterexample: a null element inside `detections` makes the mapper's
first property access throw, so normalization produces no result at all —
the outer catch discards the whole response, contradicting the claim that an
arbitrary malformed element (null included) degrades to field defaults
without throwing. -/
theorem normalize_c2_counterexample :
    processResponse c2bad 0 = .error "TypeError" := rfl

/-- C2, amended: for a non-nullish response object all of whose detections
elements are non-nullish, normalization succeeds without throwing, and a
malformed non-nullish primitive element degrades to its field defaults
(confidence 0, bbox (0,0,0,0), fallback label, no optional fields); but a
null or undefined element makes the mapper throw, and the outer catch then
discards the whole response. -/
theorem normalize_c2_amended :
    (∀ (data : JSVal) (now : ℕ), nonNullish data = true →
        (∀ x ∈ detsOf data, nonNullish x = true) →
        ∃ r, processResponse data now = .ok r) ∧
    (∀ x : JSVal, nonNullish x = true → isObjB x = false →
        normalizeDetection x = .ok defaultDetection) := by
  constructor
  · intro data now hd hx
    obtain ⟨ds, hds⟩ : ∃ ds, (match getFieldD data "detections" with
        | JSVal.arr xs => xs.mapM normalizeDetection
        | _ => Except.ok ([] : List NormDetection)) = .ok ds := by
      cases hdet : getFieldD data "detections" with
      | arr xs =>
          refine ⟨xs.map normDetF, ?_⟩
          have hxs : ∀ x ∈ xs, nonNullish x = true := by
            intro x hmem
            apply hx
            unfold detsOf
            rw [hdet]
            exact hmem
          exact mapM_normalize_of_nonNullish xs hxs
      | undefv => exact ⟨[], rfl⟩
      | nullv => exact ⟨[], rfl⟩
      | bool b => exact ⟨[], rfl⟩
      | num n => exact ⟨[], rfl⟩
      | str s => exact ⟨[], rfl⟩
      | obj fs => exact ⟨[], rfl⟩
    refine ⟨{ count := jsOr (getFieldD data "count") (.num (.fin 0))
            , detections := ds
            , image_size := getFieldD data "image_size"
            , size_counts := jsOr (getFieldD data "size_counts") defaultSizeCounts
            , calibration_info := getFieldD data "calibration_info"
            , timestamp := now }, ?_⟩
    rw [processResponse_eq_of_nonNullish data now hd, hds]
    rfl
  · intro x hnn hobj
    rw [normalizeDetection_eq_of_nonNullish x hnn]
    cases x with
    | undefv => simp [nonNullish] at hnn
    | nullv => simp [nonNullish] at hnn
    | obj fs => simp [isObjB] at hobj
    | bool b => rfl
    | num n => rfl
    | str s => rfl
    | arr xs => rfl

/-- Raw response with non-nullish detection elements for the C2 witness. -/
def c2wdata : JSVal :=
  .obj [("count", .num (.fin 2)), ("detections", .arr [.num (.fin 5), .str "x"])]

/-- C2, witness: the amended theorem applied to a concrete response whose
detections hold two primitives, and to the primitive string element. -/
theorem normalize_c2_witness :
    (∃ r, processResponse c2wdata 0 = .ok r) ∧
      normalizeDetection (.str "x") = .ok defaultDetection :=
  ⟨normalize_c2_amended.1 c2wdata 0 rfl (by decide),
   normalize_c2_amended.2 (.str "x") rfl rfl⟩

/-- Raw response carrying a truthy non-numeric count. -/
def c5raw : JSVal := .obj [("count", .str "abc"), ("detections", .arr [])]

/-- C5, counterexample: `count` is taken over with `|| 0` and never
numerically coerced, so on `{count: "abc", detections: []}` the normalized
count is the string abc — a truthy non-numeric value passes through instead
of defaulting to 0 as the claim requires. -/
theorem count_c5_counterexample :
    processResponse c5raw 0 =
      .ok { count := .str "abc", detections := [], image_size := .undefv
          , size_counts := defaultSizeCounts, calibration_info := .undefv
          , timestamp := 0 } ∧
      isNumV (.str "abc") = false ∧
      JSVal.str "abc" ≠ .num (.fin 0) :=
  ⟨rfl, rfl, fun h => JSVal.noConfusion h⟩

/-- C5, amended: the normalized count is the raw count when that is truthy
and 0 otherwise — pass-through without numeric coercion — and independent of
the detections sequence; in particular `{count: 3, detections: []}`
normalizes to count 3 with empty detections, the mismatch preserved rather
than corrected. -/
theorem count_c5_amended :
    (∀ (data : JSVal) (now : ℕ) (r : ProcessedResult),
        processResponse data now = .ok r →
        r.count = jsOr (getFieldD data "count") (.num (.fin 0))) ∧
    processResponse (.obj [("count", .num (.fin 3)), ("detections", .arr [])]) 0 =
      .ok { count := .num (.fin 3), detections := [], image_size := .undefv
          , size_counts := defaultSizeCounts, calibration_info := .undefv
          , timestamp := 0 } := by
  constructor
  · intro data now r h
    cases hd : nonNullish data
    · rw [processResponse_nullish data now hd] at h
      cases h
    · rw [processResponse_eq_of_nonNullish data now hd] at h
      cases hm : (match getFieldD data "detections" with
          | JSVal.arr xs => xs.mapM normalizeDetection
          | _ => Except.ok ([] : List NormDetection)) with
      | error e => rw [hm] at h; cases h
      | ok ds => rw [hm] at h; cases h; rfl
  · rfl

/-- C5, witness: the amended count rule applied to the concrete response with
the string count. -/
theorem count_c5_witness :
    ({ count := .str "abc", detections := [], image_size := .undefv
     , size_counts := defaultSizeCounts, calibration_info := .undefv
     , timestamp := 0 } : ProcessedResult).count =
      jsOr (getFieldD c5raw "count") (.num (.fin 0)) :=
  count_c5_amended.1 c5raw 0 _ rfl

/-- Raw response whose single detection carries a non-numeric string as its
pixel width. -/
def c7raw : JSVal := .obj [("detections", .arr [.obj [("width_px", .str "abc")]])]

/-- Optional pixel width of the first detection of a normalization outcome. -/
def firstWidthPx : Except String ProcessedResult → Option (Option JSNum)
  | .ok r => r.detections.head?.map NormDetection.width_px
  | .error _ => none

/-- First normalization of the C7 counterexample input: the truthy string
passes the `d.width_px ?` guard and coerces to NaN, which is stored. -/
def c7r1 : ProcessedResult :=
  { count := .num (.fin 0)
  , detections := [{ confidence := .fin 0
                   , bbox := [.fin 0, .fin 0, .fin 0, .fin 0]
                   , label := .str "Microplastic"
                   , width_px := some .nan, height_px := none, width_um := none
                   , height_um := none, diagonal_um := none, size_category := none }]
  , image_size := .undefv, size_counts := defaultSizeCounts
  , calibration_info := .undefv, timestamp := 0 }

/-- C7, counterexample: feeding the normalization output back through the
normalization changes a field other than the timestamp — the first pass
stores pixel width NaN (from a truthy non-numeric string), and the second
pass finds NaN falsy and drops the field to absent — so re-normalization is
not identity-except-timestamp. -/
theorem idem_c7_counterexample :
    processResponse c7raw 0 = .ok c7r1 ∧
      firstWidthPx (processResponse c7raw 0) = some (some .nan) ∧
      firstWidthPx (processResponse (resultToJS c7r1) 1) = some none ∧
      (some (some JSNum.nan) : Option (Option JSNum)) ≠ some none :=
  ⟨rfl, rfl, rfl, by simp⟩

/-- C7, amended: re-normalizing a normalization output yields the same result
with only the timestamp replaced by the later normalization instant, provided
every optional numeric field of its detections is absent or truthy; a
first-pass optional field holding 0 or NaN is instead dropped to absent by
the second pass, because the `d.f ? Number(d.f) : undefined` guard re-tests
truthiness on the already-coerced number. -/
theorem idem_c7_amended (raw : JSVal) (t1 t2 : ℕ) (r1 : ProcessedResult)
    (h1 : processResponse raw t1 = .ok r1) (hc : resultCanonicalOpt r1 = true) :
    processResponse (resultToJS r1) t2 = .ok { r1 with timestamp := t2 } := by
  obtain ⟨hcount, hsc, hdets⟩ := resInv_of_process h1
  have hcanon : ∀ d ∈ r1.detections, detCanonicalOpt d = true := by
    intro d hd
    exact List.all_eq_true.mp hc d hd
  have hred : processResponse (resultToJS r1) t2 =
      ((r1.detections.map detToJS).mapM normalizeDetection).bind (fun detections =>
        .ok { count := jsOr r1.count (.num (.fin 0))
            , detections := detections
            , image_size := r1.image_size
            , size_counts := jsOr r1.size_counts defaultSizeCounts
            , calibration_info := r1.calibration_info
            , timestamp := t2 }) := rfl
  rw [hred, mapM_renorm r1.detections hdets hcanon]
  have hc1 : jsOr r1.count (.num (.fin 0)) = r1.count := by
    rcases hcount with h | h
    · exact jsOr_of_truthy _ _ h
    · rw [h]; rfl
  have hc2 : jsOr r1.size_counts defaultSizeCounts = r1.size_counts :=
    jsOr_of_truthy _ _ hsc
  have hbind : ∀ (x : List NormDetection)
      (f : List NormDetection → Except String ProcessedResult),
      (Except.ok x : Except String (List NormDetection)).bind f = f x :=
    fun _ _ => rfl
  simp only [hbind]
  rw [hc1, hc2]

/-- Raw response for the C7 witness: a truthy count and one detection with a
truthy confidence and a truthy pixel width. -/
def c7wraw : JSVal :=
  .obj [("count", .num (.fin 2)),
        ("detections", .arr [.obj [("confidence", .num (.fin 1)),
                                   ("width_px", .num (.fin 3))]])]

/-- Normalization of the C7 witness input at instant 3. -/
def c7wr1 : ProcessedResult :=
  { count := .num (.fin 2)
  , detections := [{ confidence := .fin 1
                   , bbox := [.fin 0, .fin 0, .fin 0, .fin 0]
                   , label := .str "Microplastic"
                   , width_px := some (.fin 3), height_px := none, width_um := none
                   , height_um := none, diagonal_um := none, size_category := none }]
  , image_size := .undefv, size_counts := defaultSizeCounts
  , calibration_info := .undefv, timestamp := 3 }

/-- C7, witness: the amended idempotence theorem applied to a concrete
normalization output with truthy optional fields, at the later instant 7. -/
theorem idem_c7_witness :
    processResponse (resultToJS c7wr1) 7 = .ok { c7wr1 with timestamp := 7 } :=
  idem_c7_amended c7wraw 3 7 c7wr1 rfl rfl

end Microplastic
